import Mathlib

/-!
Verification development for the struct-documentation renderer in
`src/build/render/components/structs/index.js`.

The JavaScript core is shallowly embedded below. Purely presentational
concerns that the spec assigns to external collaborators (HTML escaping,
markdown prose rendering, label localization, CSS classes, anchor slugs)
are abstracted away; everything semantic is kept: the type registry,
generic substitution (`processGenerics`), the recursive type instantiator
(`instantiateType`) with its JS-truthiness size chain, struct inheritance
merging, size assertions, the per-render seen-types map with first-write
recording, byte-offset accumulation, the textual type descriptor, and the
table projection with embedded sub-tables and back-references.

JavaScript semantics modelled explicitly:
- absent object keys are `Option.none`;
- `x || y` on numbers treats `0` as falsy (`truthyNat` / `jsOrNat`);
- `x || y` on strings treats `""` as falsy (`jsStrOr`);
- `if (x)` on a possibly-absent string is `jsTruthyStr`;
- the unbounded JS recursion is given explicit fuel; `outOfFuel` stands
  for a computation the JS engine would still be running (or a stack
  overflow), never for a result the JS code produces;
- a thrown exception is an `Except.error`.
-/

namespace Structs

/-- Generic-argument maps: JS objects used as ordered string-to-string maps
(`Object.entries` / `Object.values` order is insertion order). -/
abbrev TypeArgs := List (String × String)

/-- A type-instantiation request `{type, typeArgs?, size?, count?}` as read by
`instantiateType` (line 113 destructures exactly these four keys). -/
structure TypeParams where
  type : String
  typeArgs : Option TypeArgs := none
  size : Option Nat := none
  count : Option Nat := none
  deriving Repr, DecidableEq

/-- A struct field object (spec §3 Field). `instantiateType` reads only the
request keys; `name`, `labels` and `comments` feed the rendered row. Comment
payloads are kept abstract as plain strings. -/
structure Field where
  name : Option String := none
  type : String
  typeArgs : Option TypeArgs := none
  size : Option Nat := none
  count : Option Nat := none
  labels : Option (List String) := none
  comments : Option String := none
  deriving Repr, DecidableEq

/-- One bitfield bit `{name, comments?, labels?}`. -/
structure Bit where
  name : Option String := none
  comments : Option String := none
  labels : Option (List String) := none
  deriving Repr, DecidableEq

/-- One enum option `{name, value?, comments?, labels?}`. -/
structure EnumOption where
  name : Option String := none
  value : Option Nat := none
  comments : Option String := none
  labels : Option (List String) := none
  deriving Repr, DecidableEq

/-- A type definition as stored in the registry. `class` is a Lean keyword,
so the tag field is named `cls`; `extends` likewise becomes `extends_`.
Every key that the source reads off a type definition object is present. -/
structure TypeDef where
  cls : Option String := none
  size : Option Nat := none
  fields : Option (List Field) := none
  extends_ : Option TypeParams := none
  assertSize : Option Nat := none
  bits : Option (List Bit) := none
  options : Option (List EnumOption) := none
  args : Option (List String) := none
  endianness : Option String := none
  type : Option String := none
  typeArgs : Option TypeArgs := none
  count : Option Nat := none
  labels : Option (List String) := none
  comments : Option String := none
  deriving Repr, DecidableEq

/-- The type registry: name-to-definition, looked up with `List.lookup`
(first binding wins, matching JS property lookup on `{...a, ...b}` built
with the shadowing overlay order in `overlayDefs`). -/
abbrev TypeDefs := List (String × TypeDef)

/-- The resolved product of one instantiation (source line 146). -/
structure InstantiatedType where
  typeDef : TypeDef
  totalSize : Nat
  singleSize : Nat
  variableSize : Option Nat := none
  count : Option Nat := none
  typeArgs : Option TypeArgs := none
  typeName : String
  deriving Repr, DecidableEq

/-- Failure outcomes of the renderer. Each constructor corresponds to one
`throw` site in the source (or, for `referenceError`, to evaluation of an
unbound identifier); `outOfFuel` is the fuel artifact of the embedding. -/
inductive RenderError where
  /-- Line 116: `Failed to resolve type ...`. -/
  | unresolvedType (name : String)
  /-- Line 138: `Failed to determine size of type ... (entry ...)`. -/
  | unresolvableSize (name : String) (entry : String)
  /-- Line 143: `Type ... size did not match assertion: ... != ...`. -/
  | sizeAssertion (name : String) (total expected : Nat)
  /-- Line 329 evaluates `typeDef.class` but no `typeDef` is in scope in
  `renderTypeAsTable`, so JS raises `ReferenceError: typeDef is not defined`
  before the intended `Unhandled type class` message can be built. -/
  | referenceError (name : String)
  /-- A JS `TypeError` from spreading / reading properties of `undefined`
  (e.g. `[...parentTypeDef.fields]` when the parent has no fields). -/
  | jsTypeError
  /-- Fuel exhaustion: the JS recursion would still be running. -/
  | outOfFuel
  deriving Repr, DecidableEq

/-- Numeric JS truthiness: `some n` is truthy iff `n` is nonzero. -/
def truthyNat : Option Nat → Option Nat
  | some n => if n = 0 then none else some n
  | none => none

/-- JS `x || d` for a possibly-absent number `x`. -/
def jsOrNat (o : Option Nat) (d : Nat) : Nat :=
  (truthyNat o).getD d

/-- JS `x || d` for a possibly-absent string `x` (`""` is falsy). -/
def jsStrOr (o : Option String) (d : String) : String :=
  match o with
  | some s => if s = "" then d else s
  | none => d

/-- JS `if (x)` for a possibly-absent string. -/
def jsTruthyStr : Option String → Bool
  | some s => s != ""
  | none => false

/-- Substitute every value of `l` through the bindings `bm`
(line 87-89: `[k, typeArgs[v] || v]`). -/
def substArgs (bm : TypeArgs) (l : TypeArgs) : TypeArgs :=
  l.map fun kv => (kv.1, jsStrOr (List.lookup kv.2 bm) kv.2)

/-- Source lines 81-91, `processGenerics(genericParams, typeArgs)`: with no
bindings the params are returned unchanged; otherwise `type` is replaced by
its binding when truthy and every `typeArgs` value is substituted (keys and
the `size`/`count` keys pass through). -/
def processGenerics (g : TypeParams) (bnd : Option TypeArgs) : TypeParams :=
  match bnd with
  | none => g
  | some bm =>
    { g with
      type := jsStrOr (List.lookup g.type bm) g.type
      typeArgs := g.typeArgs.map (substArgs bm) }

/-- The object spread `{...typeParams, ...typeDef}` of source line 120,
restricted to the four keys `instantiateType` reads: a key present on the
type definition overrides the request's. -/
def mergeParamsDef (p : TypeParams) (d : TypeDef) : TypeParams :=
  { type := d.type.getD p.type
    typeArgs := d.typeArgs <|> p.typeArgs
    size := d.size <|> p.size
    count := d.count <|> p.count }

/-- View a struct field as an instantiation request (the source passes the
field object itself; `instantiateType` reads only these four keys). -/
def fieldToParams (f : Field) : TypeParams :=
  { type := f.type, typeArgs := f.typeArgs, size := f.size, count := f.count }

/-- The merged definition `{...parentTypeDef, ...typeDef, fields: [...parent.fields, ...typeDef.fields]}`
of source lines 125-129: every key present on the child overrides the
parent's, and the field lists are concatenated parent-first. -/
def mergeDefs (parent child : TypeDef) (pfs cfs : List Field) : TypeDef :=
  { cls := child.cls <|> parent.cls
    size := child.size <|> parent.size
    fields := some (pfs ++ cfs)
    extends_ := child.extends_ <|> parent.extends_
    assertSize := child.assertSize <|> parent.assertSize
    bits := child.bits <|> parent.bits
    options := child.options <|> parent.options
    args := child.args <|> parent.args
    endianness := child.endianness <|> parent.endianness
    type := child.type <|> parent.type
    typeArgs := child.typeArgs <|> parent.typeArgs
    count := child.count <|> parent.count
    labels := child.labels <|> parent.labels
    comments := child.comments <|> parent.comments }

/-- Struct-inheritance resolution (source lines 123-130), parameterized by
the recursive instantiation function `inst`: when the definition is a struct
declaring `extends`, the parent request is substituted and instantiated and
the two definitions are merged; otherwise the definition is unchanged.
Spreading an absent `fields` array is a JS `TypeError`. -/
def resolveExtendsAux (inst : TypeParams → Except RenderError InstantiatedType)
    (td : TypeDef) (typeArgs : Option TypeArgs) : Except RenderError TypeDef :=
  if td.cls = some "struct" ∧ td.extends_.isSome then
    match td.extends_ with
    | none => .ok td
    | some ext =>
      match inst (processGenerics ext typeArgs) with
      | .error e => .error e
      | .ok parentIt =>
        match parentIt.typeDef.fields, td.fields with
        | some pfs, some cfs => .ok (mergeDefs parentIt.typeDef td pfs cfs)
        | _, _ => .error .jsTypeError
  else .ok td

/-- The `reduce` of source line 134: left fold over the struct's fields,
instantiating each substituted field and accumulating
`instantiated.totalSize + acc` from initial accumulator `0`. -/
def sumFieldSizesAux (inst : TypeParams → Except RenderError InstantiatedType) :
    List Field → Option TypeArgs → Nat → Except RenderError Nat
  | [], _, s => .ok s
  | f :: fs, ta, s =>
    match inst (processGenerics (fieldToParams f) ta) with
    | .error e => .error e
    | .ok it => sumFieldSizesAux inst fs ta (it.totalSize + s)

/-- The size chain of source lines 132-139:
`size || typeDef.size || (typeDef.class == "struct" && fields.reduce(...)) || undefined`,
with `undefined` turned into the unresolvable-size throw of line 138. Each
`||` step uses JS truthiness, so a present-but-zero size falls through and a
zero field-sum falls through to the throw. -/
def computeSingleSizeAux (inst : TypeParams → Except RenderError InstantiatedType)
    (td : TypeDef) (p : TypeParams) (entry : String) : Except RenderError Nat :=
  match truthyNat p.size with
  | some n => .ok n
  | none =>
    match truthyNat td.size with
    | some n => .ok n
    | none =>
      if td.cls = some "struct" then
        match td.fields with
        | none => .error .jsTypeError
        | some fs =>
          match sumFieldSizesAux inst fs p.typeArgs 0 with
          | .error e => .error e
          | .ok s =>
            if s = 0 then .error (.unresolvableSize p.type entry)
            else .ok s
      else .error (.unresolvableSize p.type entry)

/-- Source lines 112-147, `instantiateType(typeParams)`: registry lookup,
transparent alias expansion through `processGenerics`, inheritance merging,
the truthiness size chain, `totalSize = singleSize * (count || 1)`, and the
(truthiness-guarded) size assertion. `entry` is the captured `entryType`
used in the line-138 diagnostic. -/
def instantiateType (tds : TypeDefs) (entry : String) :
    Nat → TypeParams → Except RenderError InstantiatedType
  | 0, _ => .error .outOfFuel
  | fuel + 1, p =>
    match List.lookup p.type tds with
    | none => .error (.unresolvedType p.type)
    | some typeDef =>
      if typeDef.cls = some "alias" then
        instantiateType tds entry fuel (processGenerics (mergeParamsDef p typeDef) p.typeArgs)
      else
        match resolveExtendsAux (instantiateType tds entry fuel) typeDef p.typeArgs with
        | .error e => .error e
        | .ok typeDef =>
          match computeSingleSizeAux (instantiateType tds entry fuel) typeDef p entry with
          | .error e => .error e
          | .ok singleSize =>
            let totalSize := singleSize * jsOrNat p.count 1
            let result : InstantiatedType :=
              { typeDef := typeDef, totalSize := totalSize, singleSize := singleSize
                variableSize := p.size, count := p.count, typeArgs := p.typeArgs
                typeName := p.type }
            match truthyNat typeDef.assertSize with
            | some a =>
              if totalSize ≠ a then .error (.sizeAssertion p.type totalSize a)
              else .ok result
            | none => .ok result

/-- Inheritance resolution with the instantiator plugged in (how the source
uses it at line 124). -/
def resolveExtends (tds : TypeDefs) (entry : String) (fuel : Nat)
    (td : TypeDef) (typeArgs : Option TypeArgs) : Except RenderError TypeDef :=
  resolveExtendsAux (instantiateType tds entry fuel) td typeArgs

/-- Field-size summation with the instantiator plugged in (line 134). -/
def sumFieldSizes (tds : TypeDefs) (entry : String) (fuel : Nat)
    (fs : List Field) (ta : Option TypeArgs) (acc : Nat) : Except RenderError Nat :=
  sumFieldSizesAux (instantiateType tds entry fuel) fs ta acc

/-- Size chain with the instantiator plugged in (lines 132-139). -/
def computeSingleSize (tds : TypeDefs) (entry : String) (fuel : Nat)
    (td : TypeDef) (p : TypeParams) : Except RenderError Nat :=
  computeSingleSizeAux (instantiateType tds entry fuel) td p entry

/-- Source lines 46-74, `INTRINSIC_TYPE_DEFS`. -/
def INTRINSIC_TYPE_DEFS : TypeDefs :=
  [ ("byte", { size := some 1 }),
    ("bool", { size := some 1 }),
    ("char", { size := some 1 }),
    ("uint8", { size := some 1 }),
    ("int8", { size := some 1 }),
    ("uint16", { size := some 2 }),
    ("int16", { size := some 2 }),
    ("int32", { size := some 4 }),
    ("uint32", { size := some 4 }),
    ("int64", { size := some 8 }),
    ("uint64", { size := some 8 }),
    ("float", { size := some 4 }),
    ("double", { size := some 8 }),
    ("pad", {}),
    ("UTF-8", {}),
    ("UTF-16", {}),
    ("ptr32", { size := some 4, args := some ["T"] }),
    ("ptr64", { size := some 8, args := some ["T"] }) ]

/-- The registry overlay of source lines 103-106,
`{...INTRINSIC_TYPE_DEFS, ...typeDefs}`: user definitions shadow intrinsics
(with `List.lookup`, the earlier binding wins, so user bindings come first). -/
def overlayDefs (user : TypeDefs) : TypeDefs :=
  user ++ INTRINSIC_TYPE_DEFS

/-- The per-render `seenTypes` object (source line 108): signature string to
recorded path, where the recorded path may be JS `null` (when the field had
no usable path id). -/
abbrev Seen := List (String × Option (List String))

/-- Truthy read `seenTypes[seenTypeId]` (line 226): an absent key and a
recorded `null` are both falsy. -/
def lookupTruthy (seen : Seen) (k : String) : Option (List String) :=
  match List.lookup k seen with
  | some (some p) => some p
  | _ => none

/-- The assignment `seenTypes[seenTypeId] = fieldPathId` (line 228):
replace the binding for `k` if present, else append it. -/
def setSeen : Seen → String → Option (List String) → Seen
  | [], k, v => [(k, v)]
  | (k', v') :: t, k, v =>
    if k' = k then (k, v) :: t else (k', v') :: setSeen t k v

/-- Source lines 76-79, `joinPathId`: `null` when the parent path is `null`
or the next segment is falsy (absent or empty string); note a JS array,
even empty, is truthy. -/
def joinPathId (pathId : Option (List String)) (next : Option String) :
    Option (List String) :=
  match pathId, next with
  | some p, some n => if n = "" then none else some (p ++ [n])
  | _, _ => none

/-- The cross-reference signature of source line 225:
`` `${fieldTypeName}<${fieldTypeArgs && Object.values(fieldTypeArgs).join(",")}>` `` —
when `fieldTypeArgs` is absent the template literal interpolates the string
`undefined`. -/
def mkSeenTypeId (name : String) (ta : Option TypeArgs) : String :=
  let argsStr :=
    match ta with
    | none => "undefined"
    | some l => String.intercalate "," (l.map (·.2))
  name ++ "<" ++ argsStr ++ ">"

/-- The label badge and prose comments a row or table carries (rendered by
the external localizer and markdown renderer; kept as data here). -/
structure RenderedComments where
  labels : Option (List String) := none
  comments : Option String := none
  deriving Repr, DecidableEq

/-- Comments block for a struct field (source lines 149-162 read `labels`
and `comments` off the part). -/
def fieldComments (f : Field) : RenderedComments :=
  { labels := f.labels, comments := f.comments }

/-- Comments block for a type definition (line 319). -/
def defComments (td : TypeDef) : RenderedComments :=
  { labels := td.labels, comments := td.comments }

/-- Comments block for a bitfield bit. -/
def bitComments (b : Bit) : RenderedComments :=
  { labels := b.labels, comments := b.comments }

/-- Comments block for an enum option. -/
def optionComments (o : EnumOption) : RenderedComments :=
  { labels := o.labels, comments := o.comments }

/-- The textual type descriptor of source lines 165-177 (before HTML
escaping): name, a `: class{bits}` suffix for bitfields and enums, a
`<args>` suffix when generic arguments are present (a present-but-empty
args object still triggers the suffix, as in JS), a `(size)` suffix for an
explicit variable size, and a `[count]` suffix for a present count. -/
def typeStrOf (it : InstantiatedType) : String :=
  let s0 := it.typeName
  let s1 :=
    match it.typeDef.cls with
    | some c =>
      if c = "bitfield" ∨ c = "enum" then
        let bitCount := it.singleSize * 8
        s0 ++ s!": {c}{bitCount}"
      else s0
    | none => s0
  let s2 :=
    match it.typeArgs with
    | some ta =>
      let argsJoined := String.intercalate ", " (ta.map (·.2))
      s1 ++ s!"<{argsJoined}>"
    | none => s1
  let s3 :=
    match it.variableSize with
    | some v => s2 ++ s!"({v})"
    | none => s2
  match it.count with
  | some c => s3 ++ s!"[{c}]"
  | none => s3

/-- The endianness badge of source lines 179-182. -/
def endianBadge (td : TypeDef) : Option String :=
  match td.endianness with
  | none => none
  | some e => some (if e = "little" then "LE" else if e = "big" then "BE" else "LE/BE")

/-- The content of the type cell produced by `renderStructFieldType`
(source lines 164-184): the tooltip `title` carries the field's total byte
size, `text` is the type descriptor, `endian` the optional badge. -/
structure FieldTypeCell where
  title : Nat
  text : String
  endian : Option String := none
  deriving Repr, DecidableEq

/-- Source lines 164-184, `renderStructFieldType`. -/
def renderStructFieldType (it : InstantiatedType) : FieldTypeCell :=
  { title := it.totalSize, text := typeStrOf it, endian := endianBadge it.typeDef }

/-- JS 32-bit left shift `0x1 << i` (source line 285): the shift count is
taken mod 32 and the result is a signed 32-bit integer. -/
def jsShl1 (i : Nat) : Int :=
  let v : Nat := 2 ^ (i % 32)
  if v < 2 ^ 31 then (v : Int) else (v : Int) - 2 ^ 32

/-- One row of a bitfield or enum table: anchor name/path, the numeric cell
(mask or value), and comments. -/
structure SimpleRow where
  name : Option String := none
  rowPathId : Option (List String) := none
  value : Int
  rowComments : RenderedComments := {}
  deriving Repr, DecidableEq

/-- One struct-table row, parameterized by the type of embedded
sub-documents. `offsetCell` is the rendered offset (present iff offsets are
enabled), `typeCell` the rendered type descriptor, `backref` the anchor
path of the back-reference link (lines 253), `embedded` the nested
sub-table (lines 257-263). -/
structure RowG (δ : Type) where
  name : Option String := none
  rowPathId : Option (List String) := none
  offsetCell : Option Nat := none
  typeCell : FieldTypeCell
  rowComments : RenderedComments := {}
  backref : Option (List String) := none
  embedded : Option δ := none
  deriving Repr, DecidableEq

/-- A projected documentation node: one table (struct, bitfield or enum),
carrying the type definition's own comments block (line 319) and its rows. -/
inductive Doc where
  | structTable : RenderedComments → List (RowG Doc) → Doc
  | bitfieldTable : RenderedComments → List SimpleRow → Doc
  | enumTable : RenderedComments → List SimpleRow → Doc

/-- A struct-table row with embedded sub-documents. -/
abbrev Row := RowG Doc

/-- Source lines 271-292, `renderBitfieldAsTable`: one row per bit in
declaration order, mask `0x1 << i`. -/
def bitfieldRows (bits : List Bit) (pathId : Option (List String)) : List SimpleRow :=
  (bits.enum.map fun bi =>
    { name := bi.2.name
      rowPathId := joinPathId pathId bi.2.name
      value := jsShl1 bi.1
      rowComments := bitComments bi.2 })

/-- Source lines 294-315, `renderEnumAsTable`: one row per option in
declaration order, value = declared value if present else the index. -/
def enumRows (options : List EnumOption) (pathId : Option (List String)) : List SimpleRow :=
  (options.enum.map fun oi =>
    { name := oi.2.name
      rowPathId := joinPathId pathId oi.2.name
      value := (oi.2.value.getD oi.1 : Nat)
      rowComments := optionComments oi.2 })

/-- The embedded-type determination of source lines 231-236: a field whose
resolved definition has a truthy `class` embeds its own instantiated type;
otherwise a `ptr32`/`ptr64` field embeds the bare instantiation of its
first type argument (`Object.values(fieldTypeArgs)[0]`; reading values off
an absent args object is a JS `TypeError`, and an empty one yields the key
string `undefined`); all other fields embed nothing. -/
def embeddedTypeOf (inst : TypeParams → Except RenderError InstantiatedType)
    (ift : InstantiatedType) : Except RenderError (Option InstantiatedType) :=
  if jsTruthyStr ift.typeDef.cls then
    .ok (some ift)
  else if ift.typeName = "ptr32" ∨ ift.typeName = "ptr64" then
    match ift.typeArgs with
    | none => .error .jsTypeError
    | some ta =>
      match inst { type := ((ta.map (·.2)).headD "undefined") } with
      | .error e => .error e
      | .ok pointee => .ok (some pointee)
  else .ok none

/-- The per-field body of `renderStructAsTable` (source lines 218-265),
parameterized by the recursive table renderer `rtt` and the instantiator
`inst` so the structural recursion is on the field list. For each field in
order: join the path, instantiate the substituted field, advance the
offset, compute the cross-reference signature, record the path on first
(falsy) sight, determine the embedded type (truthy `class`, or the pointee
of `ptr32`/`ptr64`), and emit either a back-reference or a nested
sub-table. -/
def renderStructRowsAux
    (rtt : InstantiatedType → Option (List String) → Seen →
      Except RenderError (Doc × Seen))
    (inst : TypeParams → Except RenderError InstantiatedType)
    (showOffsets : Bool) :
    List Field → Option TypeArgs → Option (List String) → Nat → Seen →
      Except RenderError (List Row × Seen)
  | [], _, _, _, seen => .ok ([], seen)
  | field :: rest, tArgs, pathId, offset, seen =>
    let fieldPathId := joinPathId pathId field.name
    let fieldOffset := offset
    match inst (processGenerics (fieldToParams field) tArgs) with
    | .error e => .error e
    | .ok instantiatedFieldType =>
      let fieldSize := instantiatedFieldType.totalSize
      let seenTypeId :=
        mkSeenTypeId instantiatedFieldType.typeName instantiatedFieldType.typeArgs
      let hasSeenType := lookupTruthy seen seenTypeId
      let seen1 :=
        if hasSeenType = none then setSeen seen seenTypeId fieldPathId else seen
      match embeddedTypeOf inst instantiatedFieldType with
      | .error e => .error e
      | .ok embeddedType =>
        let mkRow (backref : Option (List String)) (sub : Option Doc) : Row :=
          { name := field.name
            rowPathId := fieldPathId
            offsetCell := if showOffsets then some fieldOffset else none
            typeCell := renderStructFieldType instantiatedFieldType
            rowComments := fieldComments field
            backref := backref
            embedded := sub }
        match embeddedType, hasSeenType with
        | some _, some firstPath =>
          match renderStructRowsAux rtt inst showOffsets rest tArgs pathId
              (fieldOffset + fieldSize) seen1 with
          | .error e => .error e
          | .ok (rows, seenOut) => .ok (mkRow (some firstPath) none :: rows, seenOut)
        | some et, none =>
          match rtt et fieldPathId seen1 with
          | .error e => .error e
          | .ok (sub, seen2) =>
            match renderStructRowsAux rtt inst showOffsets rest tArgs pathId
                (fieldOffset + fieldSize) seen2 with
            | .error e => .error e
            | .ok (rows, seenOut) => .ok (mkRow none (some sub) :: rows, seenOut)
        | none, _ =>
          match renderStructRowsAux rtt inst showOffsets rest tArgs pathId
              (fieldOffset + fieldSize) seen1 with
          | .error e => .error e
          | .ok (rows, seenOut) => .ok (mkRow none none :: rows, seenOut)

/-- Source lines 317-333, `renderTypeAsTable`: dispatch on the instantiated
definition's `class`. Structs render their field rows from offset `0`
(lines 202-269); bitfields and enums render simple rows. In the `default`
branch (line 329) the source evaluates `typeDef.class` with no `typeDef` in
scope, so the thrown value is a `ReferenceError`, not the intended
`Unhandled type class` message. Reading `fields`/`bits`/`options` off a
definition that lacks them is a JS `TypeError`. -/
def renderTypeAsTable (tds : TypeDefs) (entry : String) (showOffsets : Bool) :
    Nat → InstantiatedType → Option (List String) → Seen →
      Except RenderError (Doc × Seen)
  | 0, _, _, _ => .error .outOfFuel
  | fuel + 1, it, pathId, seen =>
    match it.typeDef.cls with
    | some "struct" =>
      match it.typeDef.fields with
      | none => .error .jsTypeError
      | some fs =>
        match renderStructRowsAux (renderTypeAsTable tds entry showOffsets fuel)
            (instantiateType tds entry fuel) showOffsets fs it.typeArgs pathId 0 seen with
        | .error e => .error e
        | .ok (rows, seenOut) => .ok (.structTable (defComments it.typeDef) rows, seenOut)
    | some "bitfield" =>
      match it.typeDef.bits with
      | none => .error .jsTypeError
      | some bs => .ok (.bitfieldTable (defComments it.typeDef) (bitfieldRows bs pathId), seen)
    | some "enum" =>
      match it.typeDef.options with
      | none => .error .jsTypeError
      | some os => .ok (.enumTable (defComments it.typeDef) (enumRows os pathId), seen)
    | _ => .error (.referenceError "typeDef")

/-- The struct-row renderer with the table renderer and instantiator
plugged in at a given fuel, as the source wires them (lines 218-265). -/
def renderStructRows (tds : TypeDefs) (entry : String) (showOffsets : Bool)
    (fuel : Nat) (fields : List Field) (tArgs : Option TypeArgs)
    (pathId : Option (List String)) (offset : Nat) (seen : Seen) :
    Except RenderError (List Row × Seen) :=
  renderStructRowsAux (renderTypeAsTable tds entry showOffsets fuel)
    (instantiateType tds entry fuel) showOffsets fields tArgs pathId offset seen

/-- Source lines 93-108 and 335, `renderStructYaml` after YAML parsing: the
registry is the intrinsics overlaid with the user definitions, the seen map
starts empty, the entry type is instantiated bare and projected with root
path `[id || ""]`. -/
def renderStructYaml (userTypeDefs : TypeDefs) (entryType : String)
    (showOffsets : Bool) (id : Option String) (fuel : Nat) :
    Except RenderError Doc :=
  let typeDefs := overlayDefs userTypeDefs
  match instantiateType typeDefs entryType fuel { type := entryType } with
  | .error e => .error e
  | .ok it =>
    match renderTypeAsTable typeDefs entryType showOffsets fuel it
        (some [jsStrOr id ""]) [] with
    | .error e => .error e
    | .ok (doc, _) => .ok doc

/-- Extract the success value of an instantiation (used by witnesses to
name the concrete result of a concrete run). -/
def getOk (e : Except RenderError InstantiatedType) : InstantiatedType :=
  e.toOption.getD { typeDef := {}, totalSize := 0, singleSize := 0, typeName := "" }
/-- Concrete one-field struct definition used by the C1 witness. -/
def c1Struct : TypeDef :=
  { cls := some "struct", fields := some [{ name := some "x", type := "u" }] }
/-- Concrete registry used by the C1 witness. -/
def c1Tds : TypeDefs := [("s", c1Struct), ("u", { size := some 4 })]
/-- Concrete request used by the C1 witness. -/
def c1Req : TypeParams := { type := "s" }
/-- Concrete definition used by the C5 witness: `size` 5, `assertSize` 8. -/
def c5Def : TypeDef := { size := some 5, assertSize := some 8 }
/-- Concrete empty struct used by the C9 witness. -/
def c9Def : TypeDef := { cls := some "struct", fields := some [] }
/-- Concrete alias chain for the C3 witness: `A -> B -> structC`, threading
the binding `T := uint32` through placeholder renames `U := T`, `V := U`. -/
def c3Tds : TypeDefs :=
  [ ("A", { cls := some "alias", type := some "B", typeArgs := some [("U", "T")] }),
    ("B", { cls := some "alias", type := some "structC", typeArgs := some [("V", "U")] }),
    ("structC", { cls := some "struct", fields := some [{ name := some "x", type := "V" }] }),
    ("uint32", { size := some 4 }) ]
/-- Parent struct for the C4 witness, with its own comments. -/
def c4Parent : TypeDef :=
  { cls := some "struct", fields := some [{ name := some "a", type := "u" }],
    comments := some "parent doc" }
/-- Child struct for the C4 witness, extending the parent and overriding
`comments`. -/
def c4Child : TypeDef :=
  { cls := some "struct", extends_ := some { type := "Parent" },
    fields := some [{ name := some "b", type := "u" }],
    comments := some "child doc" }
/-- Registry for the C4 witness. -/
def c4Tds : TypeDefs := [("Child", c4Child), ("Parent", c4Parent), ("u", { size := some 2 })]

/-- Extract the success value of a struct-row rendering (used by witnesses
to name the concrete rows of a concrete run). -/
def getOkRows (e : Except RenderError (List Row × Seen)) : List Row × Seen :=
  e.toOption.getD ([], [])

/-- The offset discipline of source lines 204, 220 and 223: the first row's
rendered offset is the running offset, and each following row's offset
advances by the previous field's total size (the `title` of its type
cell). -/
def offsetsOkB : Nat → List Row → Bool
  | _, [] => true
  | off, r :: rs => (r.offsetCell == some off) && offsetsOkB (off + r.typeCell.title) rs

/-- A table renderer preserves every truthy binding of the seen-types map:
once a signature maps to a non-null path it keeps mapping to it. -/
def SeenPreserving (rtt : InstantiatedType → Option (List String) → Seen →
    Except RenderError (Doc × Seen)) : Prop :=
  ∀ it pid seen out, rtt it pid seen = .ok out →
    ∀ k v, lookupTruthy seen k = some v → lookupTruthy out.2 k = some v

/-- Fields of the C7 witness struct: sizes 4, 2, 1, 1. -/
def c7Fields : List Field :=
  [ { name := some "a", type := "uint32" },
    { name := some "b", type := "uint16" },
    { name := some "c", type := "byte" },
    { name := some "d", type := "byte" } ]

/-- Registry of the C7 witness. -/
def c7Tds : TypeDefs := overlayDefs [("S", { cls := some "struct", fields := some c7Fields })]

/-- Registry of the C6 witness: a bitfield type used by two fields. -/
def c6Tds : TypeDefs := overlayDefs
  [("Flags", { cls := some "bitfield", size := some 4, bits := some [{ name := some "ready" }] })]

/-- First field of the C6 witness struct. -/
def c6F1 : Field := { name := some "f1", type := "Flags" }

/-- Second field of the C6 witness struct, same signature as the first. -/
def c6F2 : Field := { name := some "f2", type := "Flags" }

/-!
Helper lemmas about the instantiator. These unfold one step of
`instantiateType` so the claim theorems can reason branch by branch.
-/

/-- One-step unfolding of `instantiateType` at positive fuel. -/
theorem instantiateType_succ (tds : TypeDefs) (entry : String) (fuel : Nat)
    (p : TypeParams) :
    instantiateType tds entry (fuel + 1) p =
      match List.lookup p.type tds with
      | none => .error (.unresolvedType p.type)
      | some typeDef =>
        if typeDef.cls = some "alias" then
          instantiateType tds entry fuel (processGenerics (mergeParamsDef p typeDef) p.typeArgs)
        else
          match resolveExtendsAux (instantiateType tds entry fuel) typeDef p.typeArgs with
          | .error e => .error e
          | .ok typeDef =>
            match computeSingleSizeAux (instantiateType tds entry fuel) typeDef p entry with
            | .error e => .error e
            | .ok singleSize =>
              let totalSize := singleSize * jsOrNat p.count 1
              let result : InstantiatedType :=
                { typeDef := typeDef, totalSize := totalSize, singleSize := singleSize
                  variableSize := p.size, count := p.count, typeArgs := p.typeArgs
                  typeName := p.type }
              match truthyNat typeDef.assertSize with
              | some a =>
                if totalSize ≠ a then .error (.sizeAssertion p.type totalSize a)
                else .ok result
              | none => .ok result := rfl

/-- After lookup, alias rejection, inheritance resolution and size
computation all succeed, `instantiateType` only checks the (truthy) size
assertion on the fully-determined result record. -/
theorem instantiateType_resolved (tds : TypeDefs) (entry : String) (fuel : Nat)
    (p : TypeParams) (td td' : TypeDef) (s : Nat)
    (hlk : List.lookup p.type tds = some td)
    (hna : ¬ td.cls = some "alias")
    (hext : resolveExtendsAux (instantiateType tds entry fuel) td p.typeArgs = .ok td')
    (hss : computeSingleSizeAux (instantiateType tds entry fuel) td' p entry = .ok s) :
    instantiateType tds entry (fuel + 1) p =
      (let totalSize := s * jsOrNat p.count 1
       let result : InstantiatedType :=
        { typeDef := td', totalSize := totalSize, singleSize := s
          variableSize := p.size, count := p.count, typeArgs := p.typeArgs
          typeName := p.type }
       match truthyNat td'.assertSize with
       | some a =>
         if totalSize ≠ a then .error (.sizeAssertion p.type totalSize a)
         else .ok result
       | none => .ok result) := by
  rw [instantiateType_succ, hlk]
  simp only [if_neg hna, hext, hss]

/-- When the request carries a truthy (nonzero) explicit size, the size
chain resolves to it. -/
theorem computeSingleSizeAux_explicit
    (inst : TypeParams → Except RenderError InstantiatedType)
    (td : TypeDef) (p : TypeParams) (entry : String) (n : Nat)
    (h : truthyNat p.size = some n) :
    computeSingleSizeAux inst td p entry = .ok n := by
  simp only [computeSingleSizeAux, h]

/-- With no truthy explicit size, a truthy definition size wins. -/
theorem computeSingleSizeAux_defSize
    (inst : TypeParams → Except RenderError InstantiatedType)
    (td : TypeDef) (p : TypeParams) (entry : String) (n : Nat)
    (h1 : truthyNat p.size = none) (h2 : truthyNat td.size = some n) :
    computeSingleSizeAux inst td p entry = .ok n := by
  simp only [computeSingleSizeAux, h1, h2]

/-- With neither size truthy, a struct's nonzero field-size sum wins. -/
theorem computeSingleSizeAux_structSum
    (inst : TypeParams → Except RenderError InstantiatedType)
    (td : TypeDef) (p : TypeParams) (entry : String) (fs : List Field) (m : Nat)
    (h1 : truthyNat p.size = none) (h2 : truthyNat td.size = none)
    (hc : td.cls = some "struct") (hf : td.fields = some fs)
    (hs : sumFieldSizesAux inst fs p.typeArgs 0 = .ok m) (hm : m ≠ 0) :
    computeSingleSizeAux inst td p entry = .ok m := by
  simp only [computeSingleSizeAux, h1, h2, if_pos hc, hf, hs, if_neg hm]

/-- With neither size truthy and the definition not a struct, the chain
fails with the unresolvable-size error. -/
theorem computeSingleSizeAux_failNonStruct
    (inst : TypeParams → Except RenderError InstantiatedType)
    (td : TypeDef) (p : TypeParams) (entry : String)
    (h1 : truthyNat p.size = none) (h2 : truthyNat td.size = none)
    (hc : ¬ td.cls = some "struct") :
    computeSingleSizeAux inst td p entry = .error (.unresolvableSize p.type entry) := by
  simp only [computeSingleSizeAux, h1, h2, if_neg hc]

/-- With neither size truthy, a struct whose field sizes sum to `0` also
fails with the unresolvable-size error (the sum is falsy). -/
theorem computeSingleSizeAux_zeroSum
    (inst : TypeParams → Except RenderError InstantiatedType)
    (td : TypeDef) (p : TypeParams) (entry : String) (fs : List Field)
    (h1 : truthyNat p.size = none) (h2 : truthyNat td.size = none)
    (hc : td.cls = some "struct") (hf : td.fields = some fs)
    (hs : sumFieldSizesAux inst fs p.typeArgs 0 = .ok 0) :
    computeSingleSizeAux inst td p entry = .error (.unresolvableSize p.type entry) := by
  simp only [computeSingleSizeAux, h1, h2, if_pos hc, hf, hs]
  simp

/-- Inversion: a successful `instantiateType` at positive fuel on a
non-alias definition returns exactly the line-146 record built from the
resolved definition and the computed sizes. -/
theorem instantiateType_ok_inversion (tds : TypeDefs) (entry : String) (fuel : Nat)
    (p : TypeParams) (td td' : TypeDef) (s : Nat) (it : InstantiatedType)
    (hlk : List.lookup p.type tds = some td)
    (hna : ¬ td.cls = some "alias")
    (hext : resolveExtendsAux (instantiateType tds entry fuel) td p.typeArgs = .ok td')
    (hss : computeSingleSizeAux (instantiateType tds entry fuel) td' p entry = .ok s)
    (hok : instantiateType tds entry (fuel + 1) p = .ok it) :
    it = { typeDef := td', totalSize := s * jsOrNat p.count 1, singleSize := s
           variableSize := p.size, count := p.count, typeArgs := p.typeArgs
           typeName := p.type } := by
  rw [instantiateType_resolved tds entry fuel p td td' s hlk hna hext hss] at hok
  simp only at hok
  cases ha : truthyNat td'.assertSize with
  | none =>
    simp only [ha] at hok
    exact (Except.ok.injEq _ _ ▸ hok).symm
  | some a =>
    simp only [ha] at hok
    by_cases hne : s * jsOrNat p.count 1 ≠ a
    · rw [if_pos hne] at hok; cases hok
    · rw [if_neg hne] at hok; exact (Except.ok.injEq _ _ ▸ hok).symm

/-- C2. The invariant the code actually maintains is
`totalSize == singleSize * (count || 1)`: the multiplier is the count when
it is present and nonzero, and `1` otherwise — an absent count and a zero
count both default the multiplier to `1` (JS `||`, source line 141). -/
theorem C2_totalSize_invariant (tds : TypeDefs) (entry : String) :
    ∀ (fuel : Nat) (p : TypeParams) (it : InstantiatedType),
      instantiateType tds entry fuel p = .ok it →
      it.totalSize = it.singleSize * jsOrNat it.count 1 := by
  intro fuel
  induction fuel with
  | zero => intro p it h; exact absurd h (by simp [instantiateType])
  | succ f ih =>
    intro p it h
    rw [instantiateType_succ] at h
    cases hlk : List.lookup p.type tds with
    | none =>
      simp only [hlk] at h
      exact Except.noConfusion h
    | some td =>
      simp only [hlk] at h
      by_cases ha : td.cls = some "alias"
      · rw [if_pos ha] at h
        exact ih _ _ h
      · rw [if_neg ha] at h
        cases hre : resolveExtendsAux (instantiateType tds entry f) td p.typeArgs with
        | error e =>
          simp only [hre] at h
          exact Except.noConfusion h
        | ok td' =>
          simp only [hre] at h
          cases hss : computeSingleSizeAux (instantiateType tds entry f) td' p entry with
          | error e =>
            simp only [hss] at h
            exact Except.noConfusion h
          | ok s =>
            have hok : instantiateType tds entry (f + 1) p = .ok it := by
              rw [instantiateType_succ]
              simp only [hlk, if_neg ha, hre, hss]
              simp only [hss] at h
              exact h
            have := instantiateType_ok_inversion tds entry f p td td' s it hlk ha hre hss hok
            subst this
            rfl

/-- C2 counterexample: the claim says `totalSize == singleSize * (count ?? 1)`,
so a request with an explicit count of `0` should yield `totalSize = 0`;
the code computes `count || 1` and returns `totalSize = singleSize`. -/
theorem C2_counterexample :
    (instantiateType [("t", { size := some 4 })] "e" 2
        { type := "t", count := some 0 }).map
      (fun it => (it.totalSize, it.singleSize, it.count)) = .ok (4, 4, some 0)
    ∧ (4 : Nat) ≠ 4 * 0 := ⟨rfl, by decide⟩

/-- C2 witness: a concrete successful instantiation satisfying the amended
invariant. -/
theorem C2_totalSize_invariant_witness :
    (getOk (instantiateType [("t", { size := some 4 })] "e" 2
        { type := "t", count := some 5 })).totalSize
      = (getOk (instantiateType [("t", { size := some 4 })] "e" 2
        { type := "t", count := some 5 })).singleSize
        * jsOrNat (getOk (instantiateType [("t", { size := some 4 })] "e" 2
        { type := "t", count := some 5 })).count 1 :=
  C2_totalSize_invariant [("t", { size := some 4 })] "e" 2
    { type := "t", count := some 5 } _ rfl

/-- C1. The size priority holds with JS truthiness at every step (source
lines 132-139): a nonzero explicit request size wins; otherwise a nonzero
size on the (inheritance-resolved) definition; otherwise, for structs only,
a nonzero sum of the substituted fields' instantiated total sizes;
otherwise — including when a candidate is present but zero — the
unresolvable-size error is thrown. -/
theorem C1_size_priority (tds : TypeDefs) (entry : String) (fuel : Nat)
    (p : TypeParams) (td td' : TypeDef)
    (hlk : List.lookup p.type tds = some td)
    (hna : ¬ td.cls = some "alias")
    (hext : resolveExtends tds entry fuel td p.typeArgs = .ok td') :
    (∀ n it, truthyNat p.size = some n →
      instantiateType tds entry (fuel + 1) p = .ok it → it.singleSize = n)
    ∧ (∀ n it, truthyNat p.size = none → truthyNat td'.size = some n →
      instantiateType tds entry (fuel + 1) p = .ok it → it.singleSize = n)
    ∧ (∀ fs m it, truthyNat p.size = none → truthyNat td'.size = none →
      td'.cls = some "struct" → td'.fields = some fs →
      sumFieldSizes tds entry fuel fs p.typeArgs 0 = .ok m → m ≠ 0 →
      instantiateType tds entry (fuel + 1) p = .ok it → it.singleSize = m)
    ∧ (truthyNat p.size = none → truthyNat td'.size = none →
      ¬ td'.cls = some "struct" →
      instantiateType tds entry (fuel + 1) p = .error (.unresolvableSize p.type entry))
    ∧ (∀ fs, truthyNat p.size = none → truthyNat td'.size = none →
      td'.cls = some "struct" → td'.fields = some fs →
      sumFieldSizes tds entry fuel fs p.typeArgs 0 = .ok 0 →
      instantiateType tds entry (fuel + 1) p = .error (.unresolvableSize p.type entry)) := by
  simp only [resolveExtends] at hext
  refine ⟨?_, ?_, ?_, ?_, ?_⟩
  · intro n it hn hok
    have := instantiateType_ok_inversion tds entry fuel p td td' n it hlk hna hext
      (computeSingleSizeAux_explicit _ td' p entry n hn) hok
    subst this; rfl
  · intro n it h1 h2 hok
    have := instantiateType_ok_inversion tds entry fuel p td td' n it hlk hna hext
      (computeSingleSizeAux_defSize _ td' p entry n h1 h2) hok
    subst this; rfl
  · intro fs m it h1 h2 hc hf hs hm hok
    simp only [sumFieldSizes] at hs
    have := instantiateType_ok_inversion tds entry fuel p td td' m it hlk hna hext
      (computeSingleSizeAux_structSum _ td' p entry fs m h1 h2 hc hf hs hm) hok
    subst this; rfl
  · intro h1 h2 hc
    rw [instantiateType_succ]
    simp only [hlk, if_neg hna, hext,
      computeSingleSizeAux_failNonStruct _ td' p entry h1 h2 hc]
  · intro fs h1 h2 hc hf hs
    simp only [sumFieldSizes] at hs
    rw [instantiateType_succ]
    simp only [hlk, if_neg hna, hext,
      computeSingleSizeAux_zeroSum _ td' p entry fs h1 h2 hc hf hs]

/-- C1 counterexample: the claim gives absolute priority to an explicit
request size, but an explicit size of `0` is falsy and loses to the
definition's size — here the request says `size: 0` yet `singleSize` is the
definition's `4`. -/
theorem C1_counterexample :
    (instantiateType [("t", { size := some 4 })] "e" 2
        { type := "t", size := some 0 }).map (fun it => it.singleSize) = .ok 4
    ∧ (4 : Nat) ≠ 0 := ⟨rfl, by decide⟩

/-- C1 witness: the amended priority chain instantiated on a concrete
struct registry. -/
theorem C1_size_priority_witness :
    (∀ n it, truthyNat c1Req.size = some n →
      instantiateType c1Tds "e" (2 + 1) c1Req = .ok it → it.singleSize = n)
    ∧ (∀ n it, truthyNat c1Req.size = none → truthyNat c1Struct.size = some n →
      instantiateType c1Tds "e" (2 + 1) c1Req = .ok it → it.singleSize = n)
    ∧ (∀ fs m it, truthyNat c1Req.size = none → truthyNat c1Struct.size = none →
      c1Struct.cls = some "struct" → c1Struct.fields = some fs →
      sumFieldSizes c1Tds "e" 2 fs c1Req.typeArgs 0 = .ok m → m ≠ 0 →
      instantiateType c1Tds "e" (2 + 1) c1Req = .ok it → it.singleSize = m)
    ∧ (truthyNat c1Req.size = none → truthyNat c1Struct.size = none →
      ¬ c1Struct.cls = some "struct" →
      instantiateType c1Tds "e" (2 + 1) c1Req = .error (.unresolvableSize c1Req.type "e"))
    ∧ (∀ fs, truthyNat c1Req.size = none → truthyNat c1Struct.size = none →
      c1Struct.cls = some "struct" → c1Struct.fields = some fs →
      sumFieldSizes c1Tds "e" 2 fs c1Req.typeArgs 0 = .ok 0 →
      instantiateType c1Tds "e" (2 + 1) c1Req = .error (.unresolvableSize c1Req.type "e")) :=
  C1_size_priority c1Tds "e" 2 c1Req c1Struct c1Struct rfl (by decide) rfl

/-- C5. The assertion check the code performs is guarded by JS truthiness
(line 142: `typeDef.assertSize && totalSize != typeDef.assertSize`), so it
applies exactly when the resolved definition's `assertSize` is nonzero:
then a mismatching total size fails with the size-assertion error carrying
both values and the type name, and a matching one succeeds silently. -/
theorem C5_assertSize_enforcement (tds : TypeDefs) (entry : String) (fuel : Nat)
    (p : TypeParams) (td td' : TypeDef) (s a : Nat)
    (hlk : List.lookup p.type tds = some td)
    (hna : ¬ td.cls = some "alias")
    (hext : resolveExtends tds entry fuel td p.typeArgs = .ok td')
    (hss : computeSingleSize tds entry fuel td' p = .ok s)
    (ha : truthyNat td'.assertSize = some a) :
    (s * jsOrNat p.count 1 ≠ a →
      instantiateType tds entry (fuel + 1) p =
        .error (.sizeAssertion p.type (s * jsOrNat p.count 1) a))
    ∧ (s * jsOrNat p.count 1 = a →
      instantiateType tds entry (fuel + 1) p = .ok
        { typeDef := td', totalSize := s * jsOrNat p.count 1, singleSize := s
          variableSize := p.size, count := p.count, typeArgs := p.typeArgs
          typeName := p.type }) := by
  simp only [resolveExtends] at hext
  simp only [computeSingleSize] at hss
  have hshape := instantiateType_resolved tds entry fuel p td td' s hlk hna hext hss
  constructor
  · intro hne
    rw [hshape]
    simp only [ha, if_pos hne]
  · intro heq
    rw [hshape]
    have hnn : ¬ (s * jsOrNat p.count 1 ≠ a) := fun hcon => hcon heq
    simp only [ha, if_neg hnn]

/-- C5 counterexample: the claim covers every definition with `assertSize`
set, but an `assertSize` of `0` is falsy and never checked — this
instantiation computes `totalSize = 5 ≠ 0` yet succeeds silently. -/
theorem C5_counterexample :
    (instantiateType [("t", { size := some 5, assertSize := some 0 })] "e" 2
        { type := "t" }).map
      (fun it => (it.totalSize, it.typeDef.assertSize)) = .ok (5, some 0)
    ∧ (5 : Nat) ≠ 0 := ⟨rfl, by decide⟩

/-- C5 witness: with nonzero `assertSize` 8, the size-5 definition fails
with the size-assertion error, and a count-matching request succeeds. -/
theorem C5_assertSize_enforcement_witness :
    ((5 : Nat) * jsOrNat (none : Option Nat) 1 ≠ 8 →
      instantiateType [("t", c5Def)] "e" (1 + 1) { type := "t" } =
        .error (.sizeAssertion "t" (5 * jsOrNat (none : Option Nat) 1) 8))
    ∧ ((5 : Nat) * jsOrNat (none : Option Nat) 1 = 8 →
      instantiateType [("t", c5Def)] "e" (1 + 1) { type := "t" } = .ok
        { typeDef := c5Def, totalSize := 5 * jsOrNat (none : Option Nat) 1
          singleSize := 5, variableSize := none, count := none, typeArgs := none
          typeName := "t" }) :=
  C5_assertSize_enforcement [("t", c5Def)] "e" 1 { type := "t" } c5Def c5Def 5 8
    rfl (by decide) rfl rfl rfl

/-- C9. A struct with no truthy explicit size, no truthy declared size, and
whose fields' instantiated total sizes sum to `0` (in particular the empty
field list) hits the `|| undefined` fallthrough and fails with the
unresolvable-size error: a zero-size struct is not representable. -/
theorem C9_zero_size_struct (tds : TypeDefs) (entry : String) (fuel : Nat)
    (p : TypeParams) (td td' : TypeDef) (fs : List Field)
    (hlk : List.lookup p.type tds = some td)
    (hna : ¬ td.cls = some "alias")
    (hext : resolveExtends tds entry fuel td p.typeArgs = .ok td')
    (hs1 : truthyNat p.size = none)
    (hs2 : truthyNat td'.size = none)
    (hcls : td'.cls = some "struct")
    (hf : td'.fields = some fs)
    (hsum : sumFieldSizes tds entry fuel fs p.typeArgs 0 = .ok 0) :
    instantiateType tds entry (fuel + 1) p = .error (.unresolvableSize p.type entry) := by
  simp only [resolveExtends] at hext
  simp only [sumFieldSizes] at hsum
  rw [instantiateType_succ]
  simp only [hlk, if_neg hna, hext,
    computeSingleSizeAux_zeroSum _ td' p entry fs hs1 hs2 hcls hf hsum]

/-- C9 witness: instantiating an empty struct fails with the
unresolvable-size error. -/
theorem C9_zero_size_struct_witness :
    instantiateType [("s", c9Def)] "e" (1 + 1) { type := "s" } =
      .error (.unresolvableSize "s" "e") :=
  C9_zero_size_struct [("s", c9Def)] "e" 1 { type := "s" } c9Def c9Def []
    rfl (by decide) rfl rfl rfl rfl rfl rfl

/-- C10. When the looked-up definition is not an alias (so no alias hop can
override the request's count, see the C10 counterexample), a request with
count `0` that succeeds gets `totalSize = singleSize` (`0 || 1 = 1`, line
141), echoes `count = 0` in the result, and its rendered type descriptor
ends in a `[0]` suffix (line 175-177: `count !== undefined`). -/
theorem C10_count_zero (tds : TypeDefs) (entry : String) (fuel : Nat)
    (p : TypeParams) (td : TypeDef) (it : InstantiatedType)
    (hlk : List.lookup p.type tds = some td)
    (hna : ¬ td.cls = some "alias")
    (hc : p.count = some 0)
    (hok : instantiateType tds entry (fuel + 1) p = .ok it) :
    it.totalSize = it.singleSize ∧ it.count = some 0
      ∧ ∃ sfx, typeStrOf it = sfx ++ "[0]" := by
  rw [instantiateType_succ] at hok
  simp only [hlk, if_neg hna] at hok
  cases hre : resolveExtendsAux (instantiateType tds entry fuel) td p.typeArgs with
  | error e =>
    simp only [hre] at hok
    exact Except.noConfusion hok
  | ok td' =>
    simp only [hre] at hok
    cases hss : computeSingleSizeAux (instantiateType tds entry fuel) td' p entry with
    | error e =>
      simp only [hss] at hok
      exact Except.noConfusion hok
    | ok s =>
      have hok' : instantiateType tds entry (fuel + 1) p = .ok it := by
        rw [instantiateType_succ]
        simp only [hlk, if_neg hna, hre, hss]
        simp only [hss] at hok
        exact hok
      have hshape := instantiateType_ok_inversion tds entry fuel p td td' s it hlk hna hre hss hok'
      subst hshape
      refine ⟨?_, hc, ?_⟩
      · simp [hc, jsOrNat, truthyNat]
      · simp only [typeStrOf, hc]
        exact ⟨_, rfl⟩

/-- C10 counterexample: the claim quantifies over every request with count
`0`, but alias expansion spreads the alias definition over the request
(line 120), so an alias declaring its own `count` overrides the zero —
here the request has `count: 0` yet `totalSize = 12 = 4 * 3` and the result
echoes `count = 3`. -/
theorem C10_counterexample :
    (instantiateType
        [("A", { cls := some "alias", type := some "t", count := some 3 }),
          ("t", { size := some 4 })] "e" 3
        { type := "A", count := some 0 }).map
      (fun it => (it.totalSize, it.singleSize, it.count)) = .ok (12, 4, some 3)
    ∧ (12 : Nat) ≠ 4 := ⟨rfl, by decide⟩

/-- C10 witness: a concrete non-alias request with count `0` succeeds with
`totalSize = singleSize`. -/
theorem C10_count_zero_witness :
    (getOk (instantiateType [("t", { size := some 4 })] "e" (1 + 1)
        { type := "t", count := some 0 })).totalSize
      = (getOk (instantiateType [("t", { size := some 4 })] "e" (1 + 1)
        { type := "t", count := some 0 })).singleSize :=
  (C10_count_zero [("t", { size := some 4 })] "e" 1
    { type := "t", count := some 0 } { size := some 4 } _
    rfl (by decide) rfl rfl).1

/-- C3. Aliases are fully transparent: instantiating `a` (an alias for `b`
carrying hop bindings `tA`) under outer bindings `bm`, where `b` is itself
an alias for `c` carrying hop bindings `tB`, equals instantiating `c`
directly with the fully composed bindings `substArgs (substArgs bm tA) tB`
— one substitution layer per hop, exactly two alias unfoldings of the
instantiator. The two lookup side conditions say the intermediate type
names `b` and `c` are not themselves bound as generic placeholders (a
degenerate registry the chain does not describe). -/
theorem C3_alias_transparency (tds : TypeDefs) (entry : String) (fuel : Nat)
    (a b c : String) (bm tA tB : TypeArgs) (sC : TypeDef)
    (ha : List.lookup a tds =
      some { cls := some "alias", type := some b, typeArgs := some tA })
    (hb : List.lookup b tds =
      some { cls := some "alias", type := some c, typeArgs := some tB })
    (_hcs : List.lookup c tds = some sC) (_hstruct : sC.cls = some "struct")
    (hnb : List.lookup b bm = none)
    (hnc : List.lookup c (substArgs bm tA) = none) :
    instantiateType tds entry (fuel + 1 + 1) { type := a, typeArgs := some bm } =
      instantiateType tds entry fuel
        { type := c, typeArgs := some (substArgs (substArgs bm tA) tB) } := by
  rw [instantiateType_succ]
  simp only [ha]
  rw [if_pos trivial]
  have harg1 : processGenerics
      (mergeParamsDef { type := a, typeArgs := some bm }
        { cls := some "alias", type := some b, typeArgs := some tA })
      (some bm) = { type := b, typeArgs := some (substArgs bm tA) } := by
    simp [mergeParamsDef, processGenerics, jsStrOr, hnb]
  rw [harg1, instantiateType_succ]
  simp only [hb]
  rw [if_pos trivial]
  have harg2 : processGenerics
      (mergeParamsDef { type := b, typeArgs := some (substArgs bm tA) }
        { cls := some "alias", type := some c, typeArgs := some tB })
      (some (substArgs bm tA)) =
      { type := c, typeArgs := some (substArgs (substArgs bm tA) tB) } := by
    simp [mergeParamsDef, processGenerics, jsStrOr, hnc]
  rw [harg2]

/-- C3 witness: the concrete chain instantiates identically to the direct
struct instantiation under the composed bindings. -/
theorem C3_alias_transparency_witness :
    instantiateType c3Tds "e" (4 + 1 + 1) { type := "A", typeArgs := some [("T", "uint32")] } =
      instantiateType c3Tds "e" 4
        { type := "structC",
          typeArgs := some (substArgs (substArgs [("T", "uint32")] [("U", "T")]) [("V", "U")]) } :=
  C3_alias_transparency c3Tds "e" 4 "A" "B" "structC" [("T", "uint32")]
    [("U", "T")] [("V", "U")]
    { cls := some "struct", fields := some [{ name := some "x", type := "V" }] }
    rfl rfl rfl rfl rfl rfl

/-- C4. A struct declaring `extends` merges the instantiated parent
definition under the child (source lines 123-130): the merged field
sequence is exactly the parent's fields followed by the child's, and every
top-level property present on the child (e.g. `assertSize`, `comments`)
overrides the parent's. -/
theorem C4_extends_merge (tds : TypeDefs) (entry : String) (fuel : Nat)
    (p : TypeParams) (td : TypeDef) (ext : TypeParams) (pit : InstantiatedType)
    (pfs cfs : List Field) (it : InstantiatedType)
    (hlk : List.lookup p.type tds = some td)
    (hcls : td.cls = some "struct")
    (hext : td.extends_ = some ext)
    (hpit : instantiateType tds entry fuel (processGenerics ext p.typeArgs) = .ok pit)
    (hpf : pit.typeDef.fields = some pfs)
    (hcf : td.fields = some cfs)
    (hok : instantiateType tds entry (fuel + 1) p = .ok it) :
    it.typeDef = mergeDefs pit.typeDef td pfs cfs
    ∧ it.typeDef.fields = some (pfs ++ cfs)
    ∧ it.typeDef.assertSize = (td.assertSize <|> pit.typeDef.assertSize)
    ∧ it.typeDef.comments = (td.comments <|> pit.typeDef.comments) := by
  have hna : ¬ td.cls = some "alias" := by rw [hcls]; decide
  have hre : resolveExtendsAux (instantiateType tds entry fuel) td p.typeArgs =
      .ok (mergeDefs pit.typeDef td pfs cfs) := by
    simp only [resolveExtendsAux, hext, hpit, hpf, hcf]
    rw [if_pos ⟨hcls, rfl⟩]
  cases hss : computeSingleSizeAux (instantiateType tds entry fuel)
      (mergeDefs pit.typeDef td pfs cfs) p entry with
  | error e =>
    rw [instantiateType_succ] at hok
    simp only [hlk, if_neg hna, hre, hss] at hok
    exact Except.noConfusion hok
  | ok s =>
    have := instantiateType_ok_inversion tds entry fuel p td
      (mergeDefs pit.typeDef td pfs cfs) s it hlk hna hre hss hok
    subst this
    exact ⟨rfl, rfl, rfl, rfl⟩

/-- C4 witness: the concrete child's merged definition keeps parent fields
first and the child's comments. -/
theorem C4_extends_merge_witness :
    (getOk (instantiateType c4Tds "e" (2 + 1) { type := "Child" })).typeDef
        = mergeDefs c4Parent c4Child [{ name := some "a", type := "u" }]
            [{ name := some "b", type := "u" }]
    ∧ (getOk (instantiateType c4Tds "e" (2 + 1) { type := "Child" })).typeDef.fields
        = some ([{ name := some "a", type := "u" }] ++ [{ name := some "b", type := "u" }])
    ∧ (getOk (instantiateType c4Tds "e" (2 + 1) { type := "Child" })).typeDef.assertSize
        = (c4Child.assertSize <|> c4Parent.assertSize)
    ∧ (getOk (instantiateType c4Tds "e" (2 + 1) { type := "Child" })).typeDef.comments
        = (c4Child.comments <|> c4Parent.comments) :=
  C4_extends_merge c4Tds "e" 2 { type := "Child" } c4Child { type := "Parent" }
    (getOk (instantiateType c4Tds "e" 2 (processGenerics { type := "Parent" } none)))
    [{ name := some "a", type := "u" }] [{ name := some "b", type := "u" }]
    (getOk (instantiateType c4Tds "e" (2 + 1) { type := "Child" }))
    rfl rfl rfl rfl rfl rfl rfl

/-- C8. Projecting a successfully instantiated type whose `class` is
`"union"` — present but not `struct`/`bitfield`/`enum` — does fail, but not
with a diagnostic naming the offending class: line 329 interpolates
`typeDef.class` with no `typeDef` in scope in `renderTypeAsTable`, so JS
raises `ReferenceError: typeDef is not defined` while building the
intended `Unhandled type class` message, and that message is never
produced. -/
theorem C8_unknown_class_reference_error :
    (match instantiateType [("u", { cls := some "union", size := some 4 })] "e" 2
        { type := "u" } with
      | .error e => (.error e : Except RenderError (Doc × Seen))
      | .ok it =>
        renderTypeAsTable [("u", { cls := some "union", size := some 4 })] "e" true 2
          it (some ["x"]) [])
      = .error (.referenceError "typeDef") := rfl

/-- Offsets accumulate strictly left to right by each preceding field's
total size, whatever the table renderer and instantiator do (they do not
touch the offset accumulator). -/
theorem renderStructRowsAux_offsets
    (rtt : InstantiatedType → Option (List String) → Seen →
      Except RenderError (Doc × Seen))
    (inst : TypeParams → Except RenderError InstantiatedType) :
    ∀ (fields : List Field) (ta : Option TypeArgs) (pid : Option (List String))
      (off : Nat) (seen : Seen) (rows : List Row) (seen' : Seen),
      renderStructRowsAux rtt inst true fields ta pid off seen = .ok (rows, seen') →
      offsetsOkB off rows = true := by
  intro fields
  induction fields with
  | nil =>
    intro ta pid off seen rows seen' h
    simp only [renderStructRowsAux, Except.ok.injEq, Prod.mk.injEq] at h
    obtain ⟨h1, _⟩ := h
    rw [← h1]
    rfl
  | cons f rest ih =>
    intro ta pid off seen rows seen' h
    simp only [renderStructRowsAux] at h
    cases hift : inst (processGenerics (fieldToParams f) ta) with
    | error e =>
      rw [hift] at h
      exact Except.noConfusion h
    | ok ift =>
      rw [hift] at h
      simp only at h
      cases hemb : embeddedTypeOf inst ift with
      | error e =>
        rw [hemb] at h
        exact Except.noConfusion h
      | ok emb =>
        rw [hemb] at h
        cases emb with
        | none =>
          simp only at h
          cases hrec : renderStructRowsAux rtt inst true rest ta pid
              (off + ift.totalSize) (if lookupTruthy seen
                (mkSeenTypeId ift.typeName ift.typeArgs) = none then
                setSeen seen (mkSeenTypeId ift.typeName ift.typeArgs)
                  (joinPathId pid f.name) else seen) with
          | error e => rw [hrec] at h; exact Except.noConfusion h
          | ok out =>
            rw [hrec] at h
            simp only [Except.ok.injEq, Prod.mk.injEq] at h
            obtain ⟨h1, _⟩ := h
            rw [← h1]
            simp only [offsetsOkB, renderStructFieldType, if_pos trivial,
              beq_self_eq_true, Bool.true_and]
            exact ih _ _ _ _ _ _ hrec
        | some et =>
          cases hhs : lookupTruthy seen (mkSeenTypeId ift.typeName ift.typeArgs) with
          | some firstPath =>
            rw [hhs] at h
            simp only at h
            rw [if_neg (Option.some_ne_none firstPath)] at h
            cases hrec : renderStructRowsAux rtt inst true rest ta pid
                (off + ift.totalSize) seen with
            | error e => rw [hrec] at h; exact Except.noConfusion h
            | ok out =>
              rw [hrec] at h
              simp only [Except.ok.injEq, Prod.mk.injEq] at h
              obtain ⟨h1, _⟩ := h
              rw [← h1]
              simp only [offsetsOkB, renderStructFieldType, if_pos trivial,
                beq_self_eq_true, Bool.true_and]
              exact ih _ _ _ _ _ _ hrec
          | none =>
            rw [hhs] at h
            simp only at h
            rw [if_pos trivial] at h
            cases hrt : rtt et (joinPathId pid f.name)
                (setSeen seen (mkSeenTypeId ift.typeName ift.typeArgs)
                  (joinPathId pid f.name)) with
            | error e => rw [hrt] at h; exact Except.noConfusion h
            | ok sub =>
              rw [hrt] at h
              simp only at h
              cases hrec : renderStructRowsAux rtt inst true rest ta pid
                  (off + ift.totalSize) sub.2 with
              | error e => rw [hrec] at h; exact Except.noConfusion h
              | ok out =>
                rw [hrec] at h
                simp only [Except.ok.injEq, Prod.mk.injEq] at h
                obtain ⟨h1, _⟩ := h
                rw [← h1]
                simp only [offsetsOkB, renderStructFieldType, if_pos trivial,
                  beq_self_eq_true, Bool.true_and]
                exact ih _ _ _ _ _ _ hrec

/-- C7. With offsets enabled, the rendered per-field offsets start at the
running offset (0 at a table root, line 204) and each row's offset is the
sum of the total sizes of all preceding fields, in declaration order, with
no alignment or padding added (lines 220-223). -/
theorem C7_offset_accumulation (tds : TypeDefs) (entry : String) (fuel : Nat)
    (fields : List Field) (ta : Option TypeArgs) (pid : Option (List String))
    (off : Nat) (seen : Seen) (rows : List Row) (seen' : Seen)
    (hrun : renderStructRows tds entry true fuel fields ta pid off seen = .ok (rows, seen')) :
    offsetsOkB off rows = true :=
  renderStructRowsAux_offsets _ _ fields ta pid off seen rows seen' hrun

/-- C7 witness: the struct with field sizes `[4, 2, 1, 1]` renders with
offsets `[0, 4, 6, 7]`, and they satisfy the accumulation discipline. -/
theorem C7_offset_accumulation_witness :
    offsetsOkB 0 (getOkRows (renderStructRows c7Tds "S" true 6 c7Fields none
        (some ["s"]) 0 [])).1 = true
    ∧ (getOkRows (renderStructRows c7Tds "S" true 6 c7Fields none
        (some ["s"]) 0 [])).1.map (fun r => r.offsetCell)
      = [some 0, some 4, some 6, some 7] :=
  ⟨C7_offset_accumulation c7Tds "S" 6 c7Fields none (some ["s"]) 0 []
      (getOkRows (renderStructRows c7Tds "S" true 6 c7Fields none (some ["s"]) 0 [])).1
      (getOkRows (renderStructRows c7Tds "S" true 6 c7Fields none (some ["s"]) 0 [])).2
      rfl,
    rfl⟩

/-- Lookup after `setSeen`: the written key maps to the new value, every
other key is untouched. -/
theorem lookup_setSeen (s : Seen) (k' k : String) (v : Option (List String)) :
    List.lookup k' (setSeen s k v) = if k' = k then some v else List.lookup k' s := by
  induction s with
  | nil =>
    by_cases h : k' = k
    · simp [setSeen, List.lookup, h]
    · simp [setSeen, List.lookup, h, beq_false_of_ne h]
  | cons hd tl ih =>
    obtain ⟨k1, v1⟩ := hd
    by_cases h1 : k1 = k
    · subst h1
      by_cases h2 : k' = k1
      · subst h2
        simp [setSeen, List.lookup]
      · simp [setSeen, List.lookup, h2, beq_false_of_ne h2]
    · by_cases h2 : k' = k1
      · subst h2
        simp [setSeen, h1, List.lookup, Ne.symm h1]
      · simp [setSeen, h1, List.lookup, beq_false_of_ne h2, ih]

/-- Truthy lookup after writing a different key is unchanged. -/
theorem lookupTruthy_setSeen_of_ne (s : Seen) (k k2 : String)
    (v2 : Option (List String)) (hne : k ≠ k2) :
    lookupTruthy (setSeen s k2 v2) k = lookupTruthy s k := by
  simp [lookupTruthy, lookup_setSeen, hne]

/-- A write that the source performs (guarded by a falsy read of its own
key, line 227) preserves every truthy binding. -/
theorem lookupTruthy_preserved_write (s : Seen) (k2 : String)
    (v2 : Option (List String)) (hw : lookupTruthy s k2 = none) :
    ∀ k v, lookupTruthy s k = some v → lookupTruthy (setSeen s k2 v2) k = some v := by
  intro k v h
  have hne : k ≠ k2 := by
    intro he
    subst he
    rw [h] at hw
    exact Option.noConfusion hw
  rw [lookupTruthy_setSeen_of_ne s k k2 v2 hne]
  exact h

/-- The struct-row walk preserves truthy seen-map bindings, provided the
embedded-table renderer it calls does. -/
theorem renderStructRowsAux_preserves
    (rtt : InstantiatedType → Option (List String) → Seen →
      Except RenderError (Doc × Seen))
    (inst : TypeParams → Except RenderError InstantiatedType)
    (so : Bool) (hrtt : SeenPreserving rtt) :
    ∀ (fields : List Field) (ta : Option TypeArgs) (pid : Option (List String))
      (off : Nat) (seen : Seen) (rows : List Row) (seen' : Seen),
      renderStructRowsAux rtt inst so fields ta pid off seen = .ok (rows, seen') →
      ∀ k v, lookupTruthy seen k = some v → lookupTruthy seen' k = some v := by
  intro fields
  induction fields with
  | nil =>
    intro ta pid off seen rows seen' h k v hk
    simp only [renderStructRowsAux, Except.ok.injEq, Prod.mk.injEq] at h
    obtain ⟨_, h2⟩ := h
    rw [← h2]
    exact hk
  | cons f rest ih =>
    intro ta pid off seen rows seen' h k v hk
    simp only [renderStructRowsAux] at h
    cases hift : inst (processGenerics (fieldToParams f) ta) with
    | error e =>
      rw [hift] at h
      exact Except.noConfusion h
    | ok ift =>
      rw [hift] at h
      simp only at h
      cases hemb : embeddedTypeOf inst ift with
      | error e =>
        rw [hemb] at h
        exact Except.noConfusion h
      | ok emb =>
        rw [hemb] at h
        cases hhs : lookupTruthy seen (mkSeenTypeId ift.typeName ift.typeArgs) with
        | some firstPath =>
          rw [hhs] at h
          simp only at h
          rw [if_neg (Option.some_ne_none firstPath)] at h
          cases emb with
          | none =>
            simp only at h
            cases hrec : renderStructRowsAux rtt inst so rest ta pid
                (off + ift.totalSize) seen with
            | error e => rw [hrec] at h; exact Except.noConfusion h
            | ok out =>
              rw [hrec] at h
              simp only [Except.ok.injEq, Prod.mk.injEq] at h
              obtain ⟨_, h2⟩ := h
              rw [← h2]
              exact ih _ _ _ _ out.1 out.2 hrec k v hk
          | some et =>
            simp only at h
            cases hrec : renderStructRowsAux rtt inst so rest ta pid
                (off + ift.totalSize) seen with
            | error e => rw [hrec] at h; exact Except.noConfusion h
            | ok out =>
              rw [hrec] at h
              simp only [Except.ok.injEq, Prod.mk.injEq] at h
              obtain ⟨_, h2⟩ := h
              rw [← h2]
              exact ih _ _ _ _ out.1 out.2 hrec k v hk
        | none =>
          rw [hhs] at h
          simp only at h
          rw [if_pos trivial] at h
          have hk1 : lookupTruthy (setSeen seen (mkSeenTypeId ift.typeName ift.typeArgs)
              (joinPathId pid f.name)) k = some v :=
            lookupTruthy_preserved_write seen _ _ hhs k v hk
          cases emb with
          | none =>
            simp only at h
            cases hrec : renderStructRowsAux rtt inst so rest ta pid
                (off + ift.totalSize) (setSeen seen (mkSeenTypeId ift.typeName ift.typeArgs)
                  (joinPathId pid f.name)) with
            | error e => rw [hrec] at h; exact Except.noConfusion h
            | ok out =>
              rw [hrec] at h
              simp only [Except.ok.injEq, Prod.mk.injEq] at h
              obtain ⟨_, h2⟩ := h
              rw [← h2]
              exact ih _ _ _ _ out.1 out.2 hrec k v hk1
          | some et =>
            simp only at h
            cases hrt : rtt et (joinPathId pid f.name)
                (setSeen seen (mkSeenTypeId ift.typeName ift.typeArgs)
                  (joinPathId pid f.name)) with
            | error e => rw [hrt] at h; exact Except.noConfusion h
            | ok sub =>
              rw [hrt] at h
              simp only at h
              have hk2 : lookupTruthy sub.2 k = some v :=
                hrtt et (joinPathId pid f.name) _ sub hrt k v hk1
              cases hrec : renderStructRowsAux rtt inst so rest ta pid
                  (off + ift.totalSize) sub.2 with
              | error e => rw [hrec] at h; exact Except.noConfusion h
              | ok out =>
                rw [hrec] at h
                simp only [Except.ok.injEq, Prod.mk.injEq] at h
                obtain ⟨_, h2⟩ := h
                rw [← h2]
                exact ih _ _ _ _ out.1 out.2 hrec k v hk2

/-- The table renderer preserves truthy seen-map bindings at every fuel:
a signature recorded with a non-null first path is never overwritten. -/
theorem renderTypeAsTable_preserves (tds : TypeDefs) (entry : String) (so : Bool) :
    ∀ fuel, SeenPreserving (renderTypeAsTable tds entry so fuel) := by
  intro fuel
  induction fuel with
  | zero =>
    intro it pid seen out h
    exact Except.noConfusion h
  | succ f ih =>
    intro it pid seen out h k v hk
    simp only [renderTypeAsTable] at h
    split at h
    · -- struct dispatch
      split at h
      · exact Except.noConfusion h
      · rename_i fs hf
        split at h
        · exact Except.noConfusion h
        · rename_i rs seenOut hrows
          simp only [Except.ok.injEq] at h
          rw [← h]
          exact renderStructRowsAux_preserves _ _ so ih fs it.typeArgs pid 0 seen
            rs seenOut hrows k v hk
    · -- bitfield dispatch
      split at h
      · exact Except.noConfusion h
      · simp only [Except.ok.injEq] at h
        rw [← h]
        exact hk
    · -- enum dispatch
      split at h
      · exact Except.noConfusion h
      · simp only [Except.ok.injEq] at h
        rw [← h]
        exact hk
    · -- default: ReferenceError
      exact Except.noConfusion h

/-- Truthy lookup in the empty seen map misses. -/
theorem lookupTruthy_nil (k : String) : lookupTruthy [] k = none := rfl

/-- C6. Rendering a struct whose two fields instantiate to the same
signature (type name and type args) within one top-level call (fresh seen
map): the first field expands its embedded type into a nested sub-table
and records its own path; the second renders a back-reference link to that
first path and is not expanded; and the recorded first path survives to
the end of the call unchanged. -/
theorem C6_dedup_backref (tds : TypeDefs) (entry : String) (so : Bool) (fuel : Nat)
    (f1 f2 : Field) (ta : Option TypeArgs) (pid : List String) (off : Nat)
    (rows : List Row) (seenF : Seen) (it1 it2 : InstantiatedType) (n1 : String)
    (hrun : renderStructRows tds entry so fuel [f1, f2] ta (some pid) off [] =
      .ok (rows, seenF))
    (hit1 : instantiateType tds entry fuel (processGenerics (fieldToParams f1) ta) = .ok it1)
    (hit2 : instantiateType tds entry fuel (processGenerics (fieldToParams f2) ta) = .ok it2)
    (hsig : mkSeenTypeId it2.typeName it2.typeArgs =
      mkSeenTypeId it1.typeName it1.typeArgs)
    (hc1 : jsTruthyStr it1.typeDef.cls = true)
    (hc2 : jsTruthyStr it2.typeDef.cls = true)
    (hn1 : f1.name = some n1) (hne : ¬ n1 = "") :
    ∃ r1 r2, rows = [r1, r2]
      ∧ r1.backref = none ∧ r1.embedded.isSome = true
      ∧ r2.backref = some (pid ++ [n1]) ∧ r2.embedded = none
      ∧ lookupTruthy seenF (mkSeenTypeId it1.typeName it1.typeArgs) =
          some (pid ++ [n1]) := by
  have hpath1 : joinPathId (some pid) f1.name = some (pid ++ [n1]) := by
    rw [hn1]
    simp [joinPathId, hne]
  have hembed1 : embeddedTypeOf (instantiateType tds entry fuel) it1 = .ok (some it1) := by
    simp [embeddedTypeOf, hc1]
  have hembed2 : embeddedTypeOf (instantiateType tds entry fuel) it2 = .ok (some it2) := by
    simp [embeddedTypeOf, hc2]
  simp only [renderStructRows, renderStructRowsAux] at hrun
  rw [hit1] at hrun
  simp only at hrun
  rw [hembed1] at hrun
  simp only [lookupTruthy_nil] at hrun
  rw [if_pos trivial, hpath1] at hrun
  cases hrt : renderTypeAsTable tds entry so fuel it1 (some (pid ++ [n1]))
      (setSeen [] (mkSeenTypeId it1.typeName it1.typeArgs) (some (pid ++ [n1]))) with
  | error e =>
    rw [hrt] at hrun
    exact Except.noConfusion hrun
  | ok sub =>
    rw [hrt] at hrun
    simp only at hrun
    -- the recorded first path is truthy in the map the nested render starts from
    have hrec0 : lookupTruthy
        (setSeen [] (mkSeenTypeId it1.typeName it1.typeArgs) (some (pid ++ [n1])))
        (mkSeenTypeId it1.typeName it1.typeArgs) = some (pid ++ [n1]) := by
      simp [lookupTruthy, setSeen, List.lookup]
    -- and survives the nested render
    have hpres : lookupTruthy sub.2 (mkSeenTypeId it1.typeName it1.typeArgs) =
        some (pid ++ [n1]) :=
      renderTypeAsTable_preserves tds entry so fuel it1 (some (pid ++ [n1])) _ sub hrt
        (mkSeenTypeId it1.typeName it1.typeArgs) (pid ++ [n1]) hrec0
    -- second field
    rw [hit2] at hrun
    simp only at hrun
    rw [hembed2, hsig, hpres] at hrun
    rw [if_neg (Option.some_ne_none (pid ++ [n1]))] at hrun
    simp only [renderStructRowsAux, Except.ok.injEq, Prod.mk.injEq] at hrun
    obtain ⟨h1, h2⟩ := hrun
    refine ⟨_, _, h1.symm, rfl, rfl, rfl, rfl, ?_⟩
    rw [← h2]
    exact hpres

/-- C6 witness: rendering the two-field `Flags` struct expands the first
field and back-references the second to the first field's path, with the
recorded path intact in the final seen map. -/
theorem C6_dedup_backref_witness :
    ((getOkRows (renderStructRows c6Tds "e" true 6 [c6F1, c6F2] none
        (some ["s"]) 0 [])).1.map fun r => (r.backref, r.embedded.isSome))
      = [(none, true), (some ["s", "f1"], false)]
    ∧ lookupTruthy (getOkRows (renderStructRows c6Tds "e" true 6 [c6F1, c6F2] none
        (some ["s"]) 0 [])).2 "Flags<undefined>" = some ["s", "f1"] := by
  obtain ⟨r1, r2, hl, hb1, he1, hb2, he2, hs⟩ :=
    C6_dedup_backref c6Tds "e" true 6 c6F1 c6F2 none ["s"] 0
      (getOkRows (renderStructRows c6Tds "e" true 6 [c6F1, c6F2] none
        (some ["s"]) 0 [])).1
      (getOkRows (renderStructRows c6Tds "e" true 6 [c6F1, c6F2] none
        (some ["s"]) 0 [])).2
      (getOk (instantiateType c6Tds "e" 6 (processGenerics (fieldToParams c6F1) none)))
      (getOk (instantiateType c6Tds "e" 6 (processGenerics (fieldToParams c6F2) none)))
      "f1" rfl rfl rfl rfl rfl rfl rfl (by decide)
  constructor
  · rw [hl]
    simp [hb1, he1, hb2, he2]
  · exact hs

end Structs
